import Mathlib

/-!
Verification of the NavriAIGP-Node governance core: a shallow embedding of
the policy decision engine (`src/core/policyEngine.ts`), the policies import
route (`src/api/policiesRoutes.ts`), the trace lifecycle and event-ledger
service (`src/core/traceService.ts`) and the statistics aggregator
(`src/core/statsService.ts`), together with theorems settling the stated
properties of those components.

Conventions of the embedding:
* TypeScript `string | undefined` fields become `Option String`.
* Timestamps (`NOW()` in SQL) are `Nat` values passed in explicitly.
* Generated identities (`randomUUID()`) are `String` values passed in
  explicitly; freshness is a hypothesis where a property needs it.
* Opaque structured blobs (`Record<string, any>` serialized through
  `JSON.stringify`) are modelled as `String` / `Option String`.
* Database tables are lists of row structures; a SQL `INSERT` conses a row,
  `UPDATE ... WHERE` maps over the list, `DELETE ... WHERE` filters it.
* A fallible store interaction is an `Except StoreError` value.
-/

namespace AIGP

/-- Opaque store-layer failure (connectivity, constraint violation, ...). -/
structure StoreError where
  message : String
deriving DecidableEq, Repr

/-! ## Policy data model (`src/core/types.ts`) -/

/-- `PolicyEffect` of `types.ts`:
`allow | deny | require_approval | override_model | override_agent`. -/
inductive PolicyEffect
  | allow
  | deny
  | requireApproval
  | overrideModel
  | overrideAgent
deriving DecidableEq, Repr

/-- `PolicyMatch` of `types.ts`: every criterion field is optional. -/
structure PolicyMatch where
  use_case_id : Option String := none
  environment : Option String := none
  agent_id : Option String := none
  intent_name : Option String := none
  risk_level : Option String := none
  data_sensitivity : Option String := none
  model : Option String := none
deriving DecidableEq, Repr

/-- `PolicyDecision` of `types.ts`. -/
structure PolicyDecision where
  effect : PolicyEffect
  overrideModel : Option String := none
  overrideAgent : Option String := none
  reason : Option String := none
  policyId : Option String := none
  policyName : Option String := none
deriving DecidableEq, Repr

/-- `PolicyDecisionInput` of `types.ts`: `tenantId` required, the rest
optional. -/
structure PolicyDecisionInput where
  tenantId : String
  useCaseId : Option String := none
  intentName : Option String := none
  environment : Option String := none
  riskLevel : Option String := none
  agentId : Option String := none
  model : Option String := none
  dataSensitivity : Option String := none
deriving DecidableEq, Repr

/-- `PolicyRecord` of `types.ts`, one row of the `policies` table. The
source field `match` is a Lean keyword and is embedded as `matchCrit`. -/
structure PolicyRecord where
  id : String
  tenant_id : String
  name : String
  priority : Int
  matchCrit : PolicyMatch
  decision : PolicyDecision
  created_at : Nat
  updated_at : Nat
deriving DecidableEq, Repr

/-! ## Policy matcher (`policyEngine.ts`, `matchesPolicy`) -/

/-- `matchesPolicy` of `policyEngine.ts`: a chain of guard returns, one per
criterion field.  The TypeScript guard
`match.f !== undefined && match.f !== input.g` is `m.f.isSome && m.f != i.g`
on `Option String` (a present criterion compared against a possibly absent
input field is exactly `Option` disequality). -/
def matchesPolicy (m : PolicyMatch) (input : PolicyDecisionInput) : Bool :=
  if (m.use_case_id.isSome && m.use_case_id != input.useCaseId) = true then false
  else if (m.environment.isSome && m.environment != input.environment) = true then false
  else if (m.agent_id.isSome && m.agent_id != input.agentId) = true then false
  else if (m.intent_name.isSome && m.intent_name != input.intentName) = true then false
  else if (m.risk_level.isSome && m.risk_level != input.riskLevel) = true then false
  else if (m.data_sensitivity.isSome && m.data_sensitivity != input.dataSensitivity) = true
    then false
  else if (m.model.isSome && m.model != input.model) = true then false
  else true

/-! ## Policy engine (`policyEngine.ts`, `decide`) -/

/-- The priority-descending order the engine's SQL asks the store for:
`ORDER BY priority DESC`. -/
def priorityDesc (a b : PolicyRecord) : Prop := b.priority ≤ a.priority

instance : DecidableRel priorityDesc := fun a b => Int.decLe b.priority a.priority

instance : IsTotal PolicyRecord priorityDesc :=
  ⟨fun a b => Int.le_total b.priority a.priority⟩

instance : IsTrans PolicyRecord priorityDesc :=
  ⟨fun _ _ _ h1 h2 => Int.le_trans h2 h1⟩

/-- The rows the engine's query returns:
`SELECT ... FROM policies WHERE tenant_id = $1 ORDER BY priority DESC`
(the secondary order among equal priorities is not specified by the SQL;
the embedding fixes one stable order). -/
def listPoliciesByTenant (store : List PolicyRecord) (tenantId : String) :
    List PolicyRecord :=
  List.insertionSort priorityDesc (store.filter (fun p => p.tenant_id == tenantId))

/-- The policy-iteration loop of `decide`: return the first row whose match
criteria accept the input, spreading the row's decision and annotating it
with the row's id and name; default-allow when the loop falls through. -/
def decideRows : List PolicyRecord → PolicyDecisionInput → PolicyDecision
  | [], _ => { effect := .allow }
  | p :: rest, input =>
    if matchesPolicy p.matchCrit input then
      { p.decision with policyId := some p.id, policyName := some p.name }
    else decideRows rest input

/-- `decide` of `policyEngine.ts`: the fetched rows arrive as an
`Except StoreError` value; the `catch` arm turns any store failure into the
default `{ effect: "allow" }`. -/
def decide (fetched : Except StoreError (List PolicyRecord))
    (input : PolicyDecisionInput) : PolicyDecision :=
  match fetched with
  | .error _ => { effect := .allow }
  | .ok rows => decideRows rows input

/-! ## Trace lifecycle data model (`types.ts`, `migrations/001_initial_schema.sql`) -/

/-- `TraceStatus` of `types.ts`: `running | success | error | cancelled`. -/
inductive TraceStatus
  | running
  | success
  | error
  | cancelled
deriving DecidableEq, Repr

/-- A status other than `running` is terminal. -/
def TraceStatus.isTerminal : TraceStatus → Bool
  | .running => false
  | _ => true

/-- `TraceMeta` of `types.ts`; the optional `extra : Record<string, any>`
is an opaque blob. -/
structure TraceMeta where
  intentName : String
  useCaseId : String
  riskLevel : String
  dataSensitivity : String
  environment : String
  tenantId : String
  extra : Option String := none
deriving DecidableEq, Repr

/-- One row of the `traces` table. -/
structure TraceRow where
  id : String
  tenant_id : String
  intent_name : String
  use_case_id : String
  risk_level : String
  data_sensitivity : String
  environment : String
  created_at : Nat
  ended_at : Option Nat := none
  status : TraceStatus
  result_summary : Option String := none
deriving DecidableEq, Repr

/-- `ModelCallLog` of `types.ts`. -/
structure ModelCallLog where
  provider : String
  model : String
  stepName : String
  prompt : String
  response : String
  tokensInput : Option Int := none
  tokensOutput : Option Int := none
  latencyMs : Int
deriving DecidableEq, Repr

/-- One row of the `model_calls` table. -/
structure ModelCallRow where
  id : String
  trace_id : String
  provider : String
  model : String
  step_name : String
  prompt : String
  response : String
  tokens_input : Option Int := none
  tokens_output : Option Int := none
  latency_ms : Int
  created_at : Nat
deriving DecidableEq, Repr

/-- `AgentCallLog` of `types.ts`; the `request`/`response` records are
opaque serialized blobs. -/
structure AgentCallLog where
  agentId : String
  domain : String
  operation : String
  request : String
  response : String
  statusCode : Int
  latencyMs : Int
deriving DecidableEq, Repr

/-- One row of the `agent_calls` table. -/
structure AgentCallRow where
  id : String
  trace_id : String
  agent_id : String
  domain : String
  operation : String
  request : String
  response : String
  status_code : Int
  latency_ms : Int
  created_at : Nat
deriving DecidableEq, Repr

/-- `AuditEventLog` of `types.ts`. -/
structure AuditEventLog where
  eventType : String
  payload : String
deriving DecidableEq, Repr

/-- One row of the `audit_events` table. -/
structure AuditEventRow where
  id : String
  trace_id : String
  event_type : String
  payload : String
  created_at : Nat
deriving DecidableEq, Repr

/-! ## Trace lifecycle operations (`traceService.ts`) -/

/-- `startTrace`: `INSERT INTO traces (...) VALUES (..., NOW(), 'running')`
followed by `return { traceId }`.  The generated `randomUUID()` and `NOW()`
are the explicit `traceId` and `now` arguments.  `meta.extra` is not among
the inserted columns. -/
def startTrace (st : List TraceRow) (traceId : String) (now : Nat)
    (meta : TraceMeta) : List TraceRow × String :=
  ({ id := traceId
     tenant_id := meta.tenantId
     intent_name := meta.intentName
     use_case_id := meta.useCaseId
     risk_level := meta.riskLevel
     data_sensitivity := meta.dataSensitivity
     environment := meta.environment
     created_at := now
     ended_at := none
     status := .running
     result_summary := none } :: st, traceId)

/-- `startTrace` including its `try`/`catch`: a store failure is re-thrown
(`throw error`), a success returns the new state and the trace id. -/
def startTraceE (st : List TraceRow) (traceId : String) (now : Nat)
    (meta : TraceMeta) (store : Except StoreError Unit) :
    Except StoreError (List TraceRow × String) :=
  match store with
  | .error e => .error e
  | .ok _ => .ok (startTrace st traceId now meta)

/-- `endTrace`:
`UPDATE traces SET ended_at = NOW(), status = $1, result_summary = $2 WHERE id = $3`.
No guard checks the current status, and an id matching no row updates
nothing. -/
def endTrace (st : List TraceRow) (now : Nat) (traceId : String)
    (status : TraceStatus) (resultSummary : Option String) : List TraceRow :=
  st.map fun r =>
    if r.id == traceId then
      { r with ended_at := some now, status := status, result_summary := resultSummary }
    else r

/-- The `.substring(0, 10000)` truncation `logModelCall` applies to `prompt`
and `response` before persistence. -/
def truncate10000 (s : String) : String := String.mk (s.data.take 10000)

/-- `logModelCall`: `INSERT INTO model_calls (...)` with `prompt` and
`response` truncated; no existence check on `traceId`. -/
def logModelCall (st : List ModelCallRow) (modelCallId : String) (now : Nat)
    (traceId : String) (log : ModelCallLog) : List ModelCallRow :=
  { id := modelCallId
    trace_id := traceId
    provider := log.provider
    model := log.model
    step_name := log.stepName
    prompt := truncate10000 log.prompt
    response := truncate10000 log.response
    tokens_input := log.tokensInput
    tokens_output := log.tokensOutput
    latency_ms := log.latencyMs
    created_at := now } :: st

/-- `logAgentCall`: `INSERT INTO agent_calls (...)`. -/
def logAgentCall (st : List AgentCallRow) (agentCallId : String) (now : Nat)
    (traceId : String) (log : AgentCallLog) : List AgentCallRow :=
  { id := agentCallId
    trace_id := traceId
    agent_id := log.agentId
    domain := log.domain
    operation := log.operation
    request := log.request
    response := log.response
    status_code := log.statusCode
    latency_ms := log.latencyMs
    created_at := now } :: st

/-- `logAuditEvent`: `INSERT INTO audit_events (...)`. -/
def logAuditEvent (st : List AuditEventRow) (auditEventId : String) (now : Nat)
    (traceId : String) (log : AuditEventLog) : List AuditEventRow :=
  { id := auditEventId
    trace_id := traceId
    event_type := log.eventType
    payload := log.payload
    created_at := now } :: st

/-! ## Trace-table state machine -/

/-- One lifecycle operation on the `traces` table exactly as the service
code performs it: `endTrace` accepts any `TraceStatus`, `running`
included. -/
inductive CodeStep : List TraceRow → List TraceRow → Prop
  | startStep (st : List TraceRow) (traceId : String) (now : Nat) (meta : TraceMeta) :
      CodeStep st (startTrace st traceId now meta).1
  | endStep (st : List TraceRow) (now : Nat) (traceId : String)
      (status : TraceStatus) (rs : Option String) :
      CodeStep st (endTrace st now traceId status rs)

/-- Trace-table states the service code can reach from an empty table. -/
def ReachCode (st : List TraceRow) : Prop :=
  Relation.ReflTransGen CodeStep [] st

/-- One lifecycle operation under the discipline the service code does not
enforce: `endTrace` is only invoked with a terminal status. -/
inductive GuardedStep : List TraceRow → List TraceRow → Prop
  | startStep (st : List TraceRow) (traceId : String) (now : Nat) (meta : TraceMeta) :
      GuardedStep st (startTrace st traceId now meta).1
  | endStep (st : List TraceRow) (now : Nat) (traceId : String)
      (status : TraceStatus) (rs : Option String) :
      status.isTerminal = true →
      GuardedStep st (endTrace st now traceId status rs)

/-- Trace-table states reachable from an empty table when every `endTrace`
call carries a terminal status. -/
def ReachGuarded (st : List TraceRow) : Prop :=
  Relation.ReflTransGen GuardedStep [] st

/-- A fixed metadata value used by concrete evaluations. -/
def demoMeta : TraceMeta :=
  { intentName := "CreateTableEmpresas"
    useCaseId := "UC-DB-001"
    riskLevel := "high"
    dataSensitivity := "medium"
    environment := "hml"
    tenantId := "tenant-local" }

/-! ## Policy import (`policiesRoutes.ts`, `POST /policies/import`) -/

/-- The decision object of one imported rule, as the route's validation
schema admits it (`effect` plus optional override/reason fields). -/
structure DecisionSpec where
  effect : PolicyEffect
  overrideModel : Option String := none
  overrideAgent : Option String := none
  reason : Option String := none
deriving DecidableEq, Repr

/-- The stored form of an imported decision: the JSON blob written by
the import carries no policy id or name. -/
def DecisionSpec.toDecision (d : DecisionSpec) : PolicyDecision :=
  { effect := d.effect
    overrideModel := d.overrideModel
    overrideAgent := d.overrideAgent
    reason := d.reason }

/-- One rule of the import request body. -/
structure PolicyRule where
  name : String
  priority : Int
  matchCrit : PolicyMatch
  decision : DecisionSpec
deriving DecidableEq, Repr

/-- The `POST /policies/import` handler's store effect:
`DELETE FROM policies WHERE tenant_id = $1`, then one
`INSERT INTO policies (...)` per rule with a freshly generated id and
`NOW()` timestamps; the response carries `importedCount = rules.length`.
The generated `randomUUID()` values are the explicit `freshIds`. -/
def importPolicies (store : List PolicyRecord) (tenantId : String)
    (freshIds : List String) (now : Nat) (rules : List PolicyRule) :
    List PolicyRecord × Nat :=
  let remaining := store.filter fun p => !(p.tenant_id == tenantId)
  let inserted := (rules.zip freshIds).map fun pr =>
    { id := pr.2
      tenant_id := tenantId
      name := pr.1.name
      priority := pr.1.priority
      matchCrit := pr.1.matchCrit
      decision := pr.1.decision.toDecision
      created_at := now
      updated_at := now }
  (remaining ++ inserted, rules.length)

/-! ## Stats aggregator (`statsService.ts`, `getOverviewStats`)

Both queries range over
`traces t LEFT JOIN model_calls mc ON mc.trace_id = t.id LEFT JOIN agent_calls ac ON ac.trace_id = t.id`
restricted by the tenant/environment/time-window conditions on `t`, and
count `DISTINCT` ids.  A model-call id occurs in that joined relation
exactly when its `trace_id` equals the id of some filtered trace, so
`COUNT(DISTINCT mc.id)` denotes the number of distinct ids among the model
calls whose `trace_id` is the id of a filtered trace (the `LEFT JOIN`'s
padding rows contribute `NULL`, which `COUNT` ignores), and likewise for
traces and agent calls; the embedding uses that denotation directly. -/

/-- The `WHERE` clause on traces: `t.tenant_id = $1 AND t.created_at >= $2
AND t.created_at <= $3` plus the optional `t.environment = $n`. -/
def traceMatches (tenantId : String) (environment : Option String)
    (fromT toT : Nat) (t : TraceRow) : Bool :=
  t.tenant_id == tenantId && Nat.ble fromT t.created_at && Nat.ble t.created_at toT
    && (match environment with
        | none => true
        | some env => t.environment == env)

/-- `StatsSummary` of `types.ts`. -/
structure StatsSummary where
  totalTraces : Nat
  totalModelCalls : Nat
  totalAgentCalls : Nat
deriving DecidableEq, Repr

/-- `UseCaseStats` of `types.ts`. -/
structure UseCaseStats where
  useCaseId : String
  traces : Nat
  modelCalls : Nat
  agentCalls : Nat
  lastTraceAt : Option Nat := none
deriving DecidableEq, Repr

/-- The `ORDER BY traces DESC` order of the by-use-case query. -/
def tracesDesc (a b : UseCaseStats) : Prop := b.traces ≤ a.traces

instance : DecidableRel tracesDesc := fun a b => Nat.decLe b.traces a.traces

instance : IsTotal UseCaseStats tracesDesc :=
  ⟨fun a b => Nat.le_total b.traces a.traces⟩

instance : IsTrans UseCaseStats tracesDesc :=
  ⟨fun _ _ _ h1 h2 => Nat.le_trans h2 h1⟩

/-- The overview result: the summary and the per-use-case groups. -/
structure StatsOverview where
  summary : StatsSummary
  byUseCase : List UseCaseStats
deriving DecidableEq, Repr

/-- `getOverviewStats` of `statsService.ts`: the summary query's three
`COUNT(DISTINCT ...)` totals, and the same counts grouped by
`t.use_case_id` with `MAX(t.created_at)` per group, ordered by trace count
descending. -/
def getOverviewStats (traces : List TraceRow) (model_calls : List ModelCallRow)
    (agent_calls : List AgentCallRow) (tenantId : String)
    (environment : Option String) (fromT toT : Nat) : StatsOverview :=
  let ts := traces.filter (traceMatches tenantId environment fromT toT)
  let tids := ts.map fun t => t.id
  let summary : StatsSummary :=
    { totalTraces := tids.dedup.length
      totalModelCalls := ((model_calls.filter fun m =>
          tids.contains m.trace_id).map fun m => m.id).dedup.length
      totalAgentCalls := ((agent_calls.filter fun a =>
          tids.contains a.trace_id).map fun a => a.id).dedup.length }
  let groups := (ts.map fun t => t.use_case_id).dedup.map fun uc =>
    let g := ts.filter fun t => t.use_case_id == uc
    let gids := g.map fun t => t.id
    { useCaseId := uc
      traces := gids.dedup.length
      modelCalls := ((model_calls.filter fun m =>
          gids.contains m.trace_id).map fun m => m.id).dedup.length
      agentCalls := ((agent_calls.filter fun a =>
          gids.contains a.trace_id).map fun a => a.id).dedup.length
      lastTraceAt := (g.map fun t => t.created_at).max? }
  { summary := summary, byUseCase := List.insertionSort tracesDesc groups }

/-- A fixed two-tenant policy table used by concrete evaluations. -/
def demoPolicyStore : List PolicyRecord :=
  [{ id := "p1", tenant_id := "t1", name := "old-rule", priority := 5,
     matchCrit := {}, decision := { effect := .deny }, created_at := 0,
     updated_at := 0 },
   { id := "p2", tenant_id := "t2", name := "other-tenant", priority := 3,
     matchCrit := {}, decision := { effect := .allow }, created_at := 0,
     updated_at := 0 }]

/-- Two concrete import rules. -/
def demoRules : List PolicyRule :=
  [{ name := "prd-dba-approval", priority := 10,
     matchCrit := { environment := some "prd", agent_id := some "agent-dba" },
     decision := { effect := .requireApproval } },
   { name := "fallback-allow", priority := 1, matchCrit := {},
     decision := { effect := .allow } }]

/-- A fixed trace table used by concrete evaluations: two traces of tenant
`t1` in different use cases, one trace of tenant `t2`. -/
def demoTraces : List TraceRow :=
  [{ id := "tr1", tenant_id := "t1", intent_name := "i1", use_case_id := "UC-1",
     risk_level := "high", data_sensitivity := "low", environment := "hml",
     created_at := 10, status := .running },
   { id := "tr2", tenant_id := "t1", intent_name := "i2", use_case_id := "UC-2",
     risk_level := "low", data_sensitivity := "low", environment := "prd",
     created_at := 20, ended_at := some 25, status := .success },
   { id := "tr3", tenant_id := "t2", intent_name := "i3", use_case_id := "UC-1",
     risk_level := "low", data_sensitivity := "low", environment := "hml",
     created_at := 30, status := .running }]

/-- A fixed model-call table: two calls under tenant `t1` traces, one under
the `t2` trace. -/
def demoModelCalls : List ModelCallRow :=
  [{ id := "mc1", trace_id := "tr1", provider := "openai", model := "gpt-4",
     step_name := "s1", prompt := "p1", response := "r1", latency_ms := 5,
     created_at := 11 },
   { id := "mc2", trace_id := "tr1", provider := "openai", model := "gpt-4",
     step_name := "s2", prompt := "p2", response := "r2", latency_ms := 6,
     created_at := 12 },
   { id := "mc3", trace_id := "tr3", provider := "anthropic", model := "claude",
     step_name := "s3", prompt := "p3", response := "r3", latency_ms := 7,
     created_at := 31 }]

/-- A fixed agent-call table with one call under a tenant `t1` trace. -/
def demoAgentCalls : List AgentCallRow :=
  [{ id := "ac1", trace_id := "tr2", agent_id := "agent-dba", domain := "db",
     operation := "apply-migration", request := "req", response := "res",
     status_code := 200, latency_ms := 3, created_at := 21 }]

/-- The policy table of the spec's scenario: one imported rule requiring
approval for `environment = prd`, `agent_id = agent-dba`. -/
def demoScenarioStore : List PolicyRecord :=
  (importPolicies [] "t1" ["i1"] 5
    [{ name := "prd-dba-approval", priority := 10,
       matchCrit := { environment := some "prd", agent_id := some "agent-dba" },
       decision := { effect := .requireApproval } }]).1

/-! ## Theorems -/

/-- One criterion field imposes its constraint exactly when it is set: the
guard is passed iff every value the criterion holds is also the input's. -/
theorem criterion_ok (o x : Option String) :
    (!(o.isSome && o != x)) = true ↔ ∀ v, o = some v → x = some v := by
  cases o with
  | none => simp
  | some a =>
    simp only [Option.isSome_some, Bool.true_and, Bool.not_eq_true', bne_eq_false_iff_eq,
      Option.some.injEq]
    constructor
    · rintro rfl v rfl; rfl
    · intro h; exact (h a rfl).symm

/-- The guard-return chain of `matchesPolicy` as a Boolean conjunction. -/
theorem guard_chain (c : Bool) (b : Bool) :
    (if c = true then false else b) = (!c && b) := by
  cases c <;> simp

/-- C1: the matcher returns true iff every criterion field present in the
match criteria has a corresponding input field that is present and exactly
string-equal; an absent criterion imposes no constraint, and an absent input
field never matches a present criterion. -/
theorem matchesPolicy_iff_all_criteria (m : PolicyMatch) (input : PolicyDecisionInput) :
    matchesPolicy m input = true ↔
      ((∀ v, m.use_case_id = some v → input.useCaseId = some v)
        ∧ (∀ v, m.environment = some v → input.environment = some v)
        ∧ (∀ v, m.agent_id = some v → input.agentId = some v)
        ∧ (∀ v, m.intent_name = some v → input.intentName = some v)
        ∧ (∀ v, m.risk_level = some v → input.riskLevel = some v)
        ∧ (∀ v, m.data_sensitivity = some v → input.dataSensitivity = some v)
        ∧ (∀ v, m.model = some v → input.model = some v)) := by
  unfold matchesPolicy
  simp only [guard_chain]
  simp only [Bool.and_true, Bool.and_eq_true]
  constructor
  · rintro ⟨h1, h2, h3, h4, h5, h6, h7⟩
    exact ⟨(criterion_ok _ _).mp h1, (criterion_ok _ _).mp h2, (criterion_ok _ _).mp h3,
      (criterion_ok _ _).mp h4, (criterion_ok _ _).mp h5, (criterion_ok _ _).mp h6,
      (criterion_ok _ _).mp h7⟩
  · rintro ⟨h1, h2, h3, h4, h5, h6, h7⟩
    exact ⟨(criterion_ok _ _).mpr h1, (criterion_ok _ _).mpr h2, (criterion_ok _ _).mpr h3,
      (criterion_ok _ _).mpr h4, (criterion_ok _ _).mpr h5, (criterion_ok _ _).mpr h6,
      (criterion_ok _ _).mpr h7⟩

/-- The iteration loop returns the first matching row, default-allow
otherwise. -/
theorem decideRows_eq_find (rows : List PolicyRecord) (input : PolicyDecisionInput) :
    decideRows rows input =
      (match rows.find? (fun p => matchesPolicy p.matchCrit input) with
      | some p => { p.decision with policyId := some p.id, policyName := some p.name }
      | none => { effect := .allow }) := by
  induction rows with
  | nil => rfl
  | cons p rest ih =>
    by_cases h : matchesPolicy p.matchCrit input = true
    · simp [decideRows, List.find?_cons, h]
    · simp only [Bool.not_eq_true] at h
      simp [decideRows, List.find?_cons, h, ih]

/-- C2: the rows fetched for a tenant are exactly that tenant's policies in
priority-descending order, and `decide` on them returns the first matching
policy's decision annotated with that policy's id and name — the default
`{ effect: "allow" }` (no policy id, no policy name) when none matches, in
particular when the tenant has zero policies. -/
theorem decide_first_match_by_priority (store : List PolicyRecord)
    (input : PolicyDecisionInput) :
    (listPoliciesByTenant store input.tenantId).Pairwise
        (fun a b => b.priority ≤ a.priority)
      ∧ (listPoliciesByTenant store input.tenantId).Perm
          (store.filter (fun p => p.tenant_id == input.tenantId))
      ∧ decide (.ok (listPoliciesByTenant store input.tenantId)) input =
          (match (listPoliciesByTenant store input.tenantId).find?
              (fun p => matchesPolicy p.matchCrit input) with
          | some p =>
            { p.decision with policyId := some p.id, policyName := some p.name }
          | none => { effect := .allow }) := by
  refine ⟨?_, ?_, ?_⟩
  · exact List.sorted_insertionSort priorityDesc _
  · exact List.perm_insertionSort priorityDesc _
  · exact decideRows_eq_find _ _

/-- C3: `decide` never propagates a store failure — on any error while
loading or evaluating policies it returns the default-allow decision. -/
theorem decide_fail_open (e : StoreError) (input : PolicyDecisionInput) :
    decide (.error e) input = { effect := .allow } := rfl

/-- A status is terminal exactly when it is not `running`. -/
theorem isTerminal_iff_ne_running (s : TraceStatus) :
    s.isTerminal = true ↔ s ≠ TraceStatus.running := by
  cases s <;> simp [TraceStatus.isTerminal]

/-- C4 counterexample: the service's `endTrace` accepts any `TraceStatus`,
so calling it with `running` reaches a trace whose `endedAt` is set while
its status is still `Running`, falsifying the claimed invariant. -/
theorem trace_invariant_violated_by_running_end :
    ReachCode (endTrace (startTrace [] "trace-1" 0 demoMeta).1 1 "trace-1"
        TraceStatus.running none)
      ∧ ¬ (∀ r ∈ endTrace (startTrace [] "trace-1" 0 demoMeta).1 1 "trace-1"
            TraceStatus.running none,
          (r.ended_at = none ↔ r.status = TraceStatus.running)) := by
  constructor
  · exact Relation.ReflTransGen.tail
      (Relation.ReflTransGen.tail Relation.ReflTransGen.refl
        (CodeStep.startStep [] "trace-1" 0 demoMeta))
      (CodeStep.endStep _ 1 "trace-1" TraceStatus.running none)
  · decide

/-- C4 (amended): provided `end` is only ever invoked with a terminal
status — a discipline the code itself does not enforce — every reachable
trace state satisfies `endedAt = null ↔ status = Running`; `start` creates
the trace with status `Running` and `endedAt` null; and once a trace has
left `Running` no operation returns it there, so the transition out of
`Running` happens at most once. -/
theorem trace_invariant_guarded :
    (∀ st, ReachGuarded st →
      ∀ r ∈ st, (r.ended_at = none ↔ r.status = TraceStatus.running))
      ∧ (∀ (st : List TraceRow) (traceId : String) (now : Nat) (meta : TraceMeta),
          ((startTrace st traceId now meta).1.head?.map fun r => (r.status, r.ended_at))
            = some (TraceStatus.running, none))
      ∧ (∀ st stp, GuardedStep st stp →
          ∀ r ∈ st, r.status ≠ TraceStatus.running →
            ∃ rp ∈ stp, rp.id = r.id ∧ rp.status ≠ TraceStatus.running) := by
  refine ⟨?_, ?_, ?_⟩
  · intro st h
    induction h with
    | refl => intro r hr; cases hr
    | tail _ hstep ih =>
      cases hstep with
      | startStep traceId now meta =>
        intro r hr
        rcases List.mem_cons.mp hr with rfl | hmem
        · simp
        · exact ih r hmem
      | endStep now traceId status rs hterm =>
        intro r hr
        rcases List.mem_map.mp hr with ⟨r0, hr0, rfl⟩
        by_cases hc : (r0.id == traceId) = true
        · simp only [endTrace, hc, if_true]
          have := (isTerminal_iff_ne_running status).mp hterm
          simp [this]
        · simp only [endTrace, hc, if_false]
          exact ih r0 hr0
  · intro st traceId now meta; rfl
  · intro st stp hstep r hr hrun
    cases hstep with
    | startStep traceId now meta =>
      exact ⟨r, List.mem_cons_of_mem _ hr, rfl, hrun⟩
    | endStep now traceId status rs hterm =>
      refine ⟨if r.id == traceId then
          { r with ended_at := some now, status := status, result_summary := rs }
        else r, List.mem_map_of_mem _ hr, ?_, ?_⟩
      · by_cases hc : (r.id == traceId) = true <;> simp [hc]
      · by_cases hc : (r.id == traceId) = true
        · simp only [hc, if_true]
          exact (isTerminal_iff_ne_running status).mp hterm
        · simp only [hc, if_false]
          exact hrun

/-- The truncation never yields more than 10,000 characters. -/
theorem truncate10000_length (s : String) : (truncate10000 s).length ≤ 10000 := by
  show (s.data.take 10000).length ≤ 10000
  rw [List.length_take]
  exact min_le_left _ _

/-- The truncation leaves an input of at most 10,000 characters unchanged. -/
theorem truncate10000_of_le (s : String) (h : s.length ≤ 10000) :
    truncate10000 s = s := by
  show String.mk (s.data.take 10000) = s
  rw [List.take_of_length_le h]

/-- C5: the persisted model-call row carries `prompt` and `response` equal
to the inputs truncated to at most 10,000 units; inputs of at most 10,000
units are persisted unchanged, and the append always succeeds (truncation
is not an error). -/
theorem logModelCall_truncates (st : List ModelCallRow) (modelCallId : String)
    (now : Nat) (traceId : String) (log : ModelCallLog) :
    ∃ row, logModelCall st modelCallId now traceId log = row :: st
      ∧ row.prompt = truncate10000 log.prompt
      ∧ row.response = truncate10000 log.response
      ∧ row.prompt.length ≤ 10000
      ∧ row.response.length ≤ 10000
      ∧ (log.prompt.length ≤ 10000 → row.prompt = log.prompt)
      ∧ (log.response.length ≤ 10000 → row.response = log.response)
      ∧ row.provider = log.provider ∧ row.model = log.model
      ∧ row.trace_id = traceId := by
  refine ⟨_, rfl, rfl, rfl, truncate10000_length _, truncate10000_length _,
    truncate10000_of_le _, truncate10000_of_le _, rfl, rfl, rfl⟩

/-- C7: on store success `start` persists exactly one new row carrying the
supplied fresh identity, `status = running`, `createdAt = now` and
`endedAt = null`, and returns that identity; a store failure is propagated
unchanged to the caller. -/
theorem startTrace_persists_running (st : List TraceRow) (traceId : String)
    (now : Nat) (meta : TraceMeta) (e : StoreError)
    (hfresh : ∀ r ∈ st, r.id ≠ traceId) :
    (∃ row, startTraceE st traceId now meta (.ok ()) = .ok (row :: st, traceId)
        ∧ row.id = traceId ∧ row.status = TraceStatus.running
        ∧ row.created_at = now ∧ row.ended_at = none
        ∧ row.tenant_id = meta.tenantId
        ∧ ∀ r ∈ st, r.id ≠ row.id)
      ∧ startTraceE st traceId now meta (.error e) = .error e := by
  exact ⟨⟨_, rfl, rfl, rfl, rfl, rfl, rfl, hfresh⟩, rfl⟩

/-- Witness for C7 at a concrete input. -/
theorem startTrace_persists_running_witness :
    (∃ row, startTraceE [] "trace-1" 0 demoMeta (.ok ()) = .ok (row :: [], "trace-1")
        ∧ row.id = "trace-1" ∧ row.status = TraceStatus.running
        ∧ row.created_at = 0 ∧ row.ended_at = none
        ∧ row.tenant_id = demoMeta.tenantId
        ∧ ∀ r ∈ ([] : List TraceRow), r.id ≠ row.id)
      ∧ startTraceE [] "trace-1" 0 demoMeta (.error ⟨"store down"⟩)
          = .error ⟨"store down"⟩ :=
  startTrace_persists_running [] "trace-1" 0 demoMeta ⟨"store down"⟩
    (by intro r hr; cases hr)

/-- C9: `end` on a trace id that matches no persisted row returns normally
(no error path is taken) and leaves every persisted trace unchanged. -/
theorem endTrace_unknown_trace_noop (st : List TraceRow) (now : Nat)
    (traceId : String) (status : TraceStatus) (rs : Option String)
    (h : ∀ r ∈ st, r.id ≠ traceId) :
    endTrace st now traceId status rs = st := by
  induction st with
  | nil => rfl
  | cons r rest ih =>
    have h1 : r.id ≠ traceId := h r (List.mem_cons_self _ _)
    have h2 : endTrace rest now traceId status rs = rest :=
      ih fun x hx => h x (List.mem_cons_of_mem _ hx)
    simp only [endTrace, List.map_cons] at h2 ⊢
    rw [if_neg (by simp [h1]), h2]

/-- Witness for C9 at a concrete input: a one-row table whose id differs
from the ended id. -/
theorem endTrace_unknown_trace_noop_witness :
    endTrace (startTrace [] "trace-1" 0 demoMeta).1 7 "missing-id"
        TraceStatus.success (some "ok")
      = (startTrace [] "trace-1" 0 demoMeta).1 :=
  endTrace_unknown_trace_noop (startTrace [] "trace-1" 0 demoMeta).1 7
    "missing-id" TraceStatus.success (some "ok") (by decide)

/-- C10: two `start` calls whose metadata differ only in `extra` produce
identical persisted rows and identical results, on the success path and on
the failure path alike — `extra` is never persisted and has no observable
effect. -/
theorem startTrace_independent_of_extra (st : List TraceRow) (traceId : String)
    (now : Nat) (meta : TraceMeta) (e1 e2 : Option String)
    (store : Except StoreError Unit) :
    startTrace st traceId now { meta with extra := e1 }
        = startTrace st traceId now { meta with extra := e2 }
      ∧ startTraceE st traceId now { meta with extra := e1 } store
        = startTraceE st traceId now { meta with extra := e2 } store := by
  constructor
  · rfl
  · cases store <;> rfl

/-- C6: a successful import deletes every existing policy of the tenant and
inserts exactly one policy per submitted rule — carrying the caller-supplied
name, priority, match criteria and decision and a fresh unique identity —
leaves other tenants' policies untouched, and reports an imported count
equal to the number of submitted rules. -/
theorem importPolicies_replaces_tenant_set (store : List PolicyRecord)
    (tenantId : String) (freshIds : List String) (now : Nat)
    (rules : List PolicyRule)
    (hlen : freshIds.length = rules.length)
    (hnodup : freshIds.Nodup)
    (hfresh : ∀ i ∈ freshIds, ∀ p ∈ store, p.id ≠ i) :
    (importPolicies store tenantId freshIds now rules).2 = rules.length
      ∧ ((importPolicies store tenantId freshIds now rules).1.filter
            (fun p => p.tenant_id == tenantId)).map
          (fun p => (p.name, p.priority, p.matchCrit, p.decision))
        = rules.map (fun r => (r.name, r.priority, r.matchCrit, r.decision.toDecision))
      ∧ (importPolicies store tenantId freshIds now rules).1.filter
            (fun p => !(p.tenant_id == tenantId))
          = store.filter (fun p => !(p.tenant_id == tenantId))
      ∧ (((importPolicies store tenantId freshIds now rules).1.filter
            (fun p => p.tenant_id == tenantId)).map (fun p => p.id)).Nodup
      ∧ ∀ p ∈ (importPolicies store tenantId freshIds now rules).1,
          p.tenant_id = tenantId → ∀ q ∈ store, q.id ≠ p.id := by
  have hzip_fst : (rules.zip freshIds).map Prod.fst = rules :=
    List.map_fst_zip rules freshIds (le_of_eq hlen.symm)
  have hzip_snd : (rules.zip freshIds).map Prod.snd = freshIds :=
    List.map_snd_zip rules freshIds (le_of_eq hlen)
  have hfilter_split :
      (importPolicies store tenantId freshIds now rules).1.filter
          (fun p => p.tenant_id == tenantId)
        = (rules.zip freshIds).map fun pr =>
            { id := pr.2
              tenant_id := tenantId
              name := pr.1.name
              priority := pr.1.priority
              matchCrit := pr.1.matchCrit
              decision := pr.1.decision.toDecision
              created_at := now
              updated_at := now } := by
    show ((store.filter fun p => !(p.tenant_id == tenantId)) ++ _).filter _ = _
    rw [List.filter_append]
    rw [List.filter_filter]
    have h1 : (store.filter fun p =>
        (p.tenant_id == tenantId) && !(p.tenant_id == tenantId)) = [] := by
      apply List.filter_eq_nil_iff.mpr
      intro p _
      cases h : p.tenant_id == tenantId <;> simp [h]
    have h2 : ((rules.zip freshIds).map fun pr =>
        ({ id := pr.2, tenant_id := tenantId, name := pr.1.name,
           priority := pr.1.priority, matchCrit := pr.1.matchCrit,
           decision := pr.1.decision.toDecision, created_at := now,
           updated_at := now } : PolicyRecord)).filter
          (fun p => p.tenant_id == tenantId)
        = (rules.zip freshIds).map fun pr =>
            { id := pr.2, tenant_id := tenantId, name := pr.1.name,
              priority := pr.1.priority, matchCrit := pr.1.matchCrit,
              decision := pr.1.decision.toDecision, created_at := now,
              updated_at := now } := by
      apply List.filter_eq_self.mpr
      intro p hp
      rcases List.mem_map.mp hp with ⟨pr, _, rfl⟩
      exact beq_self_eq_true _
    rw [h1, h2]
    rfl
  refine ⟨rfl, ?_, ?_, ?_, ?_⟩
  · rw [hfilter_split, List.map_map]
    have : ((fun p : PolicyRecord => (p.name, p.priority, p.matchCrit, p.decision)) ∘
        (fun pr : PolicyRule × String =>
          ({ id := pr.2, tenant_id := tenantId, name := pr.1.name,
             priority := pr.1.priority, matchCrit := pr.1.matchCrit,
             decision := pr.1.decision.toDecision, created_at := now,
             updated_at := now } : PolicyRecord)))
        = (fun r : PolicyRule =>
            (r.name, r.priority, r.matchCrit, r.decision.toDecision)) ∘ Prod.fst := by
      funext pr; rfl
    rw [this, ← List.map_map, hzip_fst]
  · show ((store.filter fun p => !(p.tenant_id == tenantId)) ++ _).filter _ = _
    rw [List.filter_append, List.filter_filter]
    have h1 : (store.filter fun p =>
        !(p.tenant_id == tenantId) && !(p.tenant_id == tenantId))
        = store.filter fun p => !(p.tenant_id == tenantId) := by
      apply List.filter_congr
      intro p _
      cases h : p.tenant_id == tenantId <;> simp [h]
    have h2 : ((rules.zip freshIds).map fun pr =>
        ({ id := pr.2, tenant_id := tenantId, name := pr.1.name,
           priority := pr.1.priority, matchCrit := pr.1.matchCrit,
           decision := pr.1.decision.toDecision, created_at := now,
           updated_at := now } : PolicyRecord)).filter
          (fun p => !(p.tenant_id == tenantId)) = [] := by
      apply List.filter_eq_nil_iff.mpr
      intro p hp
      rcases List.mem_map.mp hp with ⟨pr, _, rfl⟩
      simp
    rw [h1, h2, List.append_nil]
  · rw [hfilter_split, List.map_map]
    have : ((fun p : PolicyRecord => p.id) ∘
        (fun pr : PolicyRule × String =>
          ({ id := pr.2, tenant_id := tenantId, name := pr.1.name,
             priority := pr.1.priority, matchCrit := pr.1.matchCrit,
             decision := pr.1.decision.toDecision, created_at := now,
             updated_at := now } : PolicyRecord))) = Prod.snd := by
      funext pr; rfl
    rw [this, hzip_snd]
    exact hnodup
  · intro p hp hpt q hq
    rcases List.mem_append.mp hp with hrem | hins
    · exact absurd hpt (by simpa using (List.mem_filter.mp hrem).2)
    · rcases List.mem_map.mp hins with ⟨pr, hpr, rfl⟩
      have : pr.2 ∈ freshIds := by
        rw [← hzip_snd]
        exact List.mem_map_of_mem Prod.snd hpr
      exact hfresh pr.2 this q hq

/-- Sums distribute over pointwise addition under `map`. -/
theorem sum_map_add {α : Type*} (l : List α) (f g : α → Nat) :
    (l.map fun x => f x + g x).sum = (l.map f).sum + (l.map g).sum := by
  induction l with
  | nil => rfl
  | cons x xs ih => simp only [List.map_cons, List.sum_cons, ih]; omega

/-- Summing the indicator of a predicate over a list counts the predicate. -/
theorem sum_map_ite_eq_countP {α : Type*} (l : List α) (q : α → Bool) :
    (l.map fun x => if q x then 1 else 0).sum = l.countP q := by
  induction l with
  | nil => rfl
  | cons x xs ih =>
    simp only [List.map_cons, List.sum_cons, List.countP_cons, ih]
    cases hq : q x <;> simp [hq, Nat.add_comm]

/-- Partition counting: when every element satisfying `p` lies in exactly one
cell of `D` (and elements violating `p` in none), the per-cell counts sum to
the total count. -/
theorem sum_countP_partition {κ μ : Type*} (D : List κ) (ms : List μ)
    (q : κ → μ → Bool) (p : μ → Bool)
    (h1 : ∀ m ∈ ms, p m = true → (D.filter fun k => q k m).length = 1)
    (h2 : ∀ m ∈ ms, p m = false → (D.filter fun k => q k m).length = 0) :
    (D.map fun k => ms.countP (q k)).sum = ms.countP p := by
  induction ms with
  | nil => simp
  | cons m rest ih =>
    have hsplit : (D.map fun k => List.countP (q k) (m :: rest)).sum
        = (D.map fun k => rest.countP (q k)).sum
          + (D.filter fun k => q k m).length := by
      calc (D.map fun k => List.countP (q k) (m :: rest)).sum
          = (D.map fun k => rest.countP (q k) + if q k m then 1 else 0).sum := by
            apply congrArg
            apply List.map_congr_left
            intro k _
            rw [List.countP_cons]
        _ = (D.map fun k => rest.countP (q k)).sum
              + (D.map fun k => if q k m then 1 else 0).sum := sum_map_add _ _ _
        _ = _ := by rw [sum_map_ite_eq_countP, List.countP_eq_length_filter]
    rw [hsplit,
      ih (fun x hx => h1 x (List.mem_cons_of_mem _ hx))
        (fun x hx => h2 x (List.mem_cons_of_mem _ hx)),
      List.countP_cons]
    cases hp : p m
    · rw [h2 m (List.mem_cons_self _ _) hp]; simp
    · rw [h1 m (List.mem_cons_self _ _) hp]; simp

/-- In a duplicate-free list, exactly one entry equals a member. -/
theorem length_filter_beq {α : Type*} [BEq α] [LawfulBEq α] (D : List α)
    (hD : D.Nodup) (a : α) (ha : a ∈ D) :
    (D.filter fun k => a == k).length = 1 := by
  induction D with
  | nil => cases ha
  | cons x xs ih =>
    rw [List.filter_cons]
    rcases List.mem_cons.mp ha with rfl | hmem
    · rw [if_pos (by simp)]
      have hnot : ∀ k ∈ xs, ¬((a == k) = true) := by
        intro k hk hak
        have : a = k := by simpa using hak
        exact (List.nodup_cons.mp hD).1 (this ▸ hk)
      rw [List.filter_eq_nil_iff.mpr hnot]
      rfl
    · have hax : ¬((a == x) = true) := by
        intro h
        have : a = x := by simpa using h
        exact (List.nodup_cons.mp hD).1 (this ▸ hmem)
      rw [if_neg hax]
      exact ih (List.nodup_cons.mp hD).2 hmem

/-- Grouping the filtered traces by use case partitions them: the per-group
trace counts sum to the total. -/
theorem sum_group_trace_counts (ts : List TraceRow) :
    (((ts.map fun t => t.use_case_id).dedup).map fun uc =>
        ts.countP fun t => t.use_case_id == uc).sum = ts.length := by
  have := sum_countP_partition ((ts.map fun t => t.use_case_id).dedup) ts
    (fun uc t => t.use_case_id == uc) (fun _ => true)
    (fun t ht _ => length_filter_beq _ (List.nodup_dedup _) t.use_case_id
      (List.mem_dedup.mpr (List.mem_map_of_mem _ ht)))
    (fun _ _ h => by cases h)
  rw [this, List.countP_true]

/-- `contains` agrees with membership on lists of strings. -/
theorem contains_iff_mem_str (l : List String) (a : String) :
    l.contains a = true ↔ a ∈ l := List.elem_iff

/-- Grouping by use case also partitions the events attached to the
filtered traces when trace ids are duplicate-free: per-group event counts
sum to the total event count. -/
theorem sum_group_event_counts {μ : Type*} (ts : List TraceRow)
    (htids : (ts.map fun t => t.id).Nodup) (ms : List μ) (tid : μ → String) :
    (((ts.map fun t => t.use_case_id).dedup).map fun uc =>
        ms.countP fun m =>
          ((ts.filter fun t => t.use_case_id == uc).map fun t => t.id).contains
            (tid m)).sum
      = ms.countP fun m => (ts.map fun t => t.id).contains (tid m) := by
  have hinj := List.inj_on_of_nodup_map htids
  have h1 : ∀ m ∈ ms, ((ts.map fun t => t.id).contains (tid m)) = true →
      (((ts.map fun t => t.use_case_id).dedup).filter fun uc =>
        ((ts.filter fun t => t.use_case_id == uc).map fun t => t.id).contains
          (tid m)).length = 1 := by
    intro m _ hp
    obtain ⟨t0, ht0, hid⟩ := List.mem_map.mp ((contains_iff_mem_str _ _).mp hp)
    have hpt : ∀ uc,
        (((ts.filter fun t => t.use_case_id == uc).map fun t => t.id).contains
          (tid m)) = (t0.use_case_id == uc) := by
      intro uc
      cases hq : ((ts.filter fun t => t.use_case_id == uc).map fun t => t.id).contains
          (tid m) with
      | true =>
        obtain ⟨t1, ht1, hid1⟩ := List.mem_map.mp ((contains_iff_mem_str _ _).mp hq)
        have ht1ts : t1 ∈ ts := List.mem_of_mem_filter ht1
        have ht1uc : (t1.use_case_id == uc) = true := (List.mem_filter.mp ht1).2
        have heq : t1 = t0 := hinj ht1ts ht0 (by rw [hid1, hid])
        rw [← heq]
        exact ht1uc.symm
      | false =>
        cases hb : (t0.use_case_id == uc) with
        | false => rfl
        | true =>
          exfalso
          have ht0f : t0 ∈ ts.filter fun t => t.use_case_id == uc :=
            List.mem_filter.mpr ⟨ht0, hb⟩
          have hmem2 : tid m ∈ (ts.filter fun t => t.use_case_id == uc).map
              fun t => t.id := by
            rw [← hid]
            exact List.mem_map_of_mem _ ht0f
          have hc := (contains_iff_mem_str _ _).mpr hmem2
          rw [hq] at hc
          simp at hc
    rw [List.filter_congr (fun uc _ => hpt uc)]
    exact length_filter_beq _ (List.nodup_dedup _) t0.use_case_id
      (List.mem_dedup.mpr (List.mem_map_of_mem _ ht0))
  have h2 : ∀ m ∈ ms, ((ts.map fun t => t.id).contains (tid m)) = false →
      (((ts.map fun t => t.use_case_id).dedup).filter fun uc =>
        ((ts.filter fun t => t.use_case_id == uc).map fun t => t.id).contains
          (tid m)).length = 0 := by
    intro m _ hp
    have hnone : ∀ uc ∈ (ts.map fun t => t.use_case_id).dedup,
        ¬((((ts.filter fun t => t.use_case_id == uc).map fun t => t.id).contains
          (tid m)) = true) := by
      intro uc _ hq
      obtain ⟨t1, ht1, hid1⟩ := List.mem_map.mp ((contains_iff_mem_str _ _).mp hq)
      have hmem2 : tid m ∈ ts.map fun t => t.id := by
        rw [← hid1]
        exact List.mem_map_of_mem _ (List.mem_of_mem_filter ht1)
      have hc := (contains_iff_mem_str _ _).mpr hmem2
      rw [hp] at hc
      simp at hc
    rw [List.filter_eq_nil_iff.mpr hnone]
    rfl
  exact sum_countP_partition _ ms
    (fun uc m =>
      ((ts.filter fun t => t.use_case_id == uc).map fun t => t.id).contains (tid m))
    (fun m => (ts.map fun t => t.id).contains (tid m)) h1 h2

/-- C8: with duplicate-free row ids (the tables' primary keys), the overview
summary counts equal the number of traces matching the filters and the
number of model-call and agent-call events whose parent trace matches the
filters, and the per-use-case group counts sum to the corresponding summary
totals. -/
theorem statsOverview_counts_correct (traces : List TraceRow)
    (model_calls : List ModelCallRow) (agent_calls : List AgentCallRow)
    (tenantId : String) (environment : Option String) (fromT toT : Nat)
    (hT : (traces.map fun t => t.id).Nodup)
    (hM : (model_calls.map fun m => m.id).Nodup)
    (hA : (agent_calls.map fun a => a.id).Nodup) :
    (getOverviewStats traces model_calls agent_calls tenantId environment
        fromT toT).summary.totalTraces
      = (traces.filter (traceMatches tenantId environment fromT toT)).length
    ∧ (getOverviewStats traces model_calls agent_calls tenantId environment
        fromT toT).summary.totalModelCalls
      = (model_calls.filter fun m =>
          ((traces.filter (traceMatches tenantId environment fromT toT)).map
            fun t => t.id).contains m.trace_id).length
    ∧ (getOverviewStats traces model_calls agent_calls tenantId environment
        fromT toT).summary.totalAgentCalls
      = (agent_calls.filter fun a =>
          ((traces.filter (traceMatches tenantId environment fromT toT)).map
            fun t => t.id).contains a.trace_id).length
    ∧ (((getOverviewStats traces model_calls agent_calls tenantId environment
        fromT toT).byUseCase.map fun u => u.traces).sum
      = (getOverviewStats traces model_calls agent_calls tenantId environment
        fromT toT).summary.totalTraces)
    ∧ (((getOverviewStats traces model_calls agent_calls tenantId environment
        fromT toT).byUseCase.map fun u => u.modelCalls).sum
      = (getOverviewStats traces model_calls agent_calls tenantId environment
        fromT toT).summary.totalModelCalls)
    ∧ (((getOverviewStats traces model_calls agent_calls tenantId environment
        fromT toT).byUseCase.map fun u => u.agentCalls).sum
      = (getOverviewStats traces model_calls agent_calls tenantId environment
        fromT toT).summary.totalAgentCalls) := by
  have htids : ((traces.filter (traceMatches tenantId environment fromT toT)).map
      fun t => t.id).Nodup :=
    List.Nodup.sublist (List.Sublist.map _ (List.filter_sublist _)) hT
  have hMf : ∀ (q : ModelCallRow → Bool),
      ((model_calls.filter q).map fun m => m.id).dedup.length
        = (model_calls.filter q).length := by
    intro q
    rw [List.dedup_eq_self.mpr
      (List.Nodup.sublist (List.Sublist.map _ (List.filter_sublist _)) hM)]
    exact List.length_map _ _
  have hAf : ∀ (q : AgentCallRow → Bool),
      ((agent_calls.filter q).map fun a => a.id).dedup.length
        = (agent_calls.filter q).length := by
    intro q
    rw [List.dedup_eq_self.mpr
      (List.Nodup.sublist (List.Sublist.map _ (List.filter_sublist _)) hA)]
    exact List.length_map _ _
  have hTf : ∀ (q : TraceRow → Bool),
      (((traces.filter (traceMatches tenantId environment fromT toT)).filter q).map
          fun t => t.id).dedup.length
        = ((traces.filter (traceMatches tenantId environment fromT toT)).filter
            q).length := by
    intro q
    rw [List.dedup_eq_self.mpr
      (List.Nodup.sublist (List.Sublist.map _ (List.filter_sublist _)) htids)]
    exact List.length_map _ _
  refine ⟨?_, ?_, ?_, ?_, ?_, ?_⟩ <;> dsimp only [getOverviewStats]
  · rw [List.dedup_eq_self.mpr htids]
    exact List.length_map _ _
  · exact hMf _
  · exact hAf _
  · rw [(((List.perm_insertionSort tracesDesc _)).map (fun u => u.traces)).sum_eq,
      List.map_map]
    rw [List.map_congr_left (g := fun uc =>
        (traces.filter (traceMatches tenantId environment fromT toT)).countP
          fun t => t.use_case_id == uc)
      (fun uc _ => by
        dsimp only [Function.comp]
        rw [hTf _, List.countP_eq_length_filter])]
    rw [sum_group_trace_counts, List.dedup_eq_self.mpr htids, List.length_map]
  · rw [(((List.perm_insertionSort tracesDesc _)).map (fun u => u.modelCalls)).sum_eq,
      List.map_map]
    rw [List.map_congr_left (g := fun uc =>
        model_calls.countP fun m =>
          (((traces.filter (traceMatches tenantId environment fromT toT)).filter
            fun t => t.use_case_id == uc).map fun t => t.id).contains m.trace_id)
      (fun uc _ => by
        dsimp only [Function.comp]
        rw [hMf _, List.countP_eq_length_filter])]
    rw [sum_group_event_counts _ htids model_calls (fun m => m.trace_id),
      hMf _, List.countP_eq_length_filter]
  · rw [(((List.perm_insertionSort tracesDesc _)).map (fun u => u.agentCalls)).sum_eq,
      List.map_map]
    rw [List.map_congr_left (g := fun uc =>
        agent_calls.countP fun a =>
          (((traces.filter (traceMatches tenantId environment fromT toT)).filter
            fun t => t.use_case_id == uc).map fun t => t.id).contains a.trace_id)
      (fun uc _ => by
        dsimp only [Function.comp]
        rw [hAf _, List.countP_eq_length_filter])]
    rw [sum_group_event_counts _ htids agent_calls (fun a => a.trace_id),
      hAf _, List.countP_eq_length_filter]

/-- Witness for C6 at a concrete input: a two-rule import into a table
holding one policy of the importing tenant and one of another tenant. -/
theorem importPolicies_replaces_tenant_set_witness :
    (importPolicies demoPolicyStore "t1" ["i1", "i2"] 5 demoRules).2
        = demoRules.length
      ∧ ((importPolicies demoPolicyStore "t1" ["i1", "i2"] 5 demoRules).1.filter
            (fun p => p.tenant_id == "t1")).map
          (fun p => (p.name, p.priority, p.matchCrit, p.decision))
        = demoRules.map
            (fun r => (r.name, r.priority, r.matchCrit, r.decision.toDecision))
      ∧ (importPolicies demoPolicyStore "t1" ["i1", "i2"] 5 demoRules).1.filter
            (fun p => !(p.tenant_id == "t1"))
          = demoPolicyStore.filter (fun p => !(p.tenant_id == "t1"))
      ∧ (((importPolicies demoPolicyStore "t1" ["i1", "i2"] 5 demoRules).1.filter
            (fun p => p.tenant_id == "t1")).map (fun p => p.id)).Nodup
      ∧ ∀ p ∈ (importPolicies demoPolicyStore "t1" ["i1", "i2"] 5 demoRules).1,
          p.tenant_id = "t1" → ∀ q ∈ demoPolicyStore, q.id ≠ p.id :=
  importPolicies_replaces_tenant_set demoPolicyStore "t1" ["i1", "i2"] 5 demoRules
    (by decide) (by decide) (by decide)

/-- Witness for C8 at a concrete input: overview for tenant `t1` over the
window `[0, 100]` with no environment filter. -/
theorem statsOverview_counts_correct_witness :
    (getOverviewStats demoTraces demoModelCalls demoAgentCalls "t1" none
        0 100).summary.totalTraces
      = (demoTraces.filter (traceMatches "t1" none 0 100)).length
    ∧ (getOverviewStats demoTraces demoModelCalls demoAgentCalls "t1" none
        0 100).summary.totalModelCalls
      = (demoModelCalls.filter fun m =>
          ((demoTraces.filter (traceMatches "t1" none 0 100)).map
            fun t => t.id).contains m.trace_id).length
    ∧ (getOverviewStats demoTraces demoModelCalls demoAgentCalls "t1" none
        0 100).summary.totalAgentCalls
      = (demoAgentCalls.filter fun a =>
          ((demoTraces.filter (traceMatches "t1" none 0 100)).map
            fun t => t.id).contains a.trace_id).length
    ∧ (((getOverviewStats demoTraces demoModelCalls demoAgentCalls "t1" none
        0 100).byUseCase.map fun u => u.traces).sum
      = (getOverviewStats demoTraces demoModelCalls demoAgentCalls "t1" none
        0 100).summary.totalTraces)
    ∧ (((getOverviewStats demoTraces demoModelCalls demoAgentCalls "t1" none
        0 100).byUseCase.map fun u => u.modelCalls).sum
      = (getOverviewStats demoTraces demoModelCalls demoAgentCalls "t1" none
        0 100).summary.totalModelCalls)
    ∧ (((getOverviewStats demoTraces demoModelCalls demoAgentCalls "t1" none
        0 100).byUseCase.map fun u => u.agentCalls).sum
      = (getOverviewStats demoTraces demoModelCalls demoAgentCalls "t1" none
        0 100).summary.totalAgentCalls) :=
  statsOverview_counts_correct demoTraces demoModelCalls demoAgentCalls "t1" none
    0 100 (by decide) (by decide) (by decide)

example :
    decide (.ok (listPoliciesByTenant demoScenarioStore "t1"))
      { tenantId := "t1", environment := some "prd", agentId := some "agent-dba" }
      = { effect := .requireApproval, policyId := some "i1",
          policyName := some "prd-dba-approval" } := by decide

example :
    decide (.ok (listPoliciesByTenant demoScenarioStore "t1"))
      { tenantId := "t1", environment := some "dev", agentId := some "agent-dba" }
      = { effect := .allow } := by decide

example :
    decide (.ok (listPoliciesByTenant demoScenarioStore "missing-tenant"))
      { tenantId := "missing-tenant" } = { effect := .allow } := by decide

end AIGP
